import Mathlib

/-!
Verification development for the WINHMS-Data-Mining dashboard repository.

The core under verification is `clean_uploaded_data` (src/Dashboard1.py) —
the loader / reconciler pipeline that turns an uploaded spreadsheet into the
canonical per-salesperson table — together with the currency formatter
`format_inr` (src/Dashboard1.py).

Modelling conventions:
* a spreadsheet cell is `Option String` (`none` models a pandas `NaN`);
* `pd.read_excel(file, skiprows=3)` is modelled by `read_excel_at 3`,
  which takes row 3 of the raw grid as the header row (`NaN` header cells
  become pandas-style labels `Unnamed: i`) and the following rows as data;
* numeric strings are parsed by `parseSigned`, a model of the decimal
  grammar accepted by `pd.to_numeric` / Python `float` restricted to
  sign + digits + one optional decimal point (exponents, underscores and
  infinities are outside the modelled grammar); a parsed number is kept as
  a pair (mantissa : Int, fracLen : Nat) whose rational value is `decVal`;
* floating-point values are modelled by exact rationals; the `str()`
  rendering of a normalized float column is modelled by `floatRepr`,
  which prints the exact decimal expansion of the value.
-/

/-- A spreadsheet cell: `none` models a pandas `NaN`, `some s` a text cell. -/
abbrev Cell := Option String

/-- A raw worksheet: the rows of the uploaded sheet before any header handling. -/
abbrev RawGrid := List (List Cell)

/-- A pandas DataFrame as produced by `pd.read_excel`: column labels plus rows. -/
structure DataFrame where
  columns : List String
  data : List (List Cell)
deriving Repr

/-- Cell access with pandas padding semantics: a missing entry is `NaN`. -/
def getCell (r : List Cell) (i : Nat) : Cell := r.getD i none

/-- Numeric value of a decimal digit character, `none` on anything else
(code points 48 through 57 carry the values 0 through 9). -/
def charDig (c : Char) : Option Nat :=
  if 48 ≤ c.toNat ∧ c.toNat ≤ 57 then some (c.toNat - 48) else none

/-- One step of big-endian digit accumulation; fails on a non-digit. -/
def digStep (acc : Option Nat) (c : Char) : Option Nat :=
  match acc, charDig c with
  | some a, some d => some (a * 10 + d)
  | _, _ => none

/-- Digit accumulation over a character list, starting from `acc`. -/
def digsValAux (acc : Option Nat) (l : List Char) : Option Nat :=
  l.foldl digStep acc

/-- Value of a big-endian digit string; `some 0` on the empty string. -/
def digsVal (l : List Char) : Option Nat := digsValAux (some 0) l

/-- Split a character list at the first decimal point. -/
def splitDot : List Char → List Char × Option (List Char)
  | [] => ([], none)
  | c :: t =>
    if c = '.' then ([], some t)
    else
      let p := splitDot t
      (c :: p.1, p.2)

/-- Parse an unsigned decimal literal (digits with at most one point, at
least one digit overall) into (mantissa, number of fractional digits). -/
def parseUnsigned (l : List Char) : Option (Nat × Nat) :=
  match splitDot l with
  | (as, none) =>
    if as.isEmpty then none else (digsVal as).map (fun v => (v, 0))
  | (as, some bs) =>
    if as.isEmpty && bs.isEmpty then none
    else
      match digsVal as, digsVal bs with
      | some a, some b => some (a * 10 ^ bs.length + b, bs.length)
      | _, _ => none

/-- Parse a signed decimal literal: the numeric grammar modelled for
`pd.to_numeric(..., errors="coerce")` on an already-trimmed string. -/
def parseSigned (l : List Char) : Option (Int × Nat) :=
  match l with
  | [] => none
  | c :: t =>
    if c = '-' then (parseUnsigned t).map (fun p => (-(p.1 : Int), p.2))
    else if c = '+' then (parseUnsigned t).map (fun p => ((p.1 : Int), p.2))
    else (parseUnsigned (c :: t)).map (fun p => ((p.1 : Int), p.2))

/-- Rational value of a parsed decimal: mantissa over `10 ^ fracLen`. -/
def decVal (m : Int) (f : Nat) : ℚ := (m : ℚ) / (10 : ℚ) ^ f

/-- `astype(str)` on a cell: a pandas `NaN` renders as the string `nan`. -/
def cellToStr (c : Cell) : String :=
  match c with
  | none => "nan"
  | some s => s

/-- The cell cleaning of `clean_uploaded_data` (src/Dashboard1.py lines 72-77):
`.str.replace("₹", "").str.replace(",", "").str.strip()`. -/
def cleanChars (s : String) : List Char :=
  let noSym := s.toList.filter (fun c => !(c = '₹') && !(c = ','))
  ((noSym.dropWhile Char.isWhitespace).reverse.dropWhile Char.isWhitespace).reverse

/-- The parsed form of a cleaned cell, before the `fillna(0)` default. -/
def toNumericCell (c : Cell) : Option (Int × Nat) :=
  parseSigned (cleanChars (cellToStr c))

/-- Full numeric normalization of one cell
(src/Dashboard1.py lines 70-78): clean, parse, and default to 0 on failure
(`pd.to_numeric(..., errors="coerce").fillna(0)`). -/
def normalizeCell (c : Cell) : ℚ :=
  match toNumericCell c with
  | some p => decVal p.1 p.2
  | none => 0

/-- Substring containment on character lists (the semantics of the pandas
regex `str.contains` with a plain-literal alternation pattern). -/
def hasSub : List Char → List Char → Bool
  | [], pat => pat.isEmpty
  | l@(_ :: t), pat => pat.isPrefixOf l || hasSub t pat

/-- Lower-cased character list of a string (models `case=False` matching). -/
def toLowerList (s : String) : List Char := s.toList.map Char.toLower

/-- Row-retention predicate of `clean_uploaded_data`
(src/Dashboard1.py lines 63-66): `dropna(subset=['Sales Person Name'])`
drops `NaN` names, and `~str.contains('Total|Not Defined|Grand Total',
case=False, na=False)` drops names containing any of the three patterns. -/
def rowKept (c : Cell) : Bool :=
  match c with
  | none => false
  | some s =>
    !(hasSub (toLowerList s) "total".toList) &&
    !(hasSub (toLowerList s) "not defined".toList) &&
    !(hasSub (toLowerList s) "grand total".toList)

/-- One reconciled output record: the seven canonical fields of the table
returned by `clean_uploaded_data` (the name column keeps its cell value,
all other columns have been numerically normalized). -/
structure CanonicalRow where
  name : Option String
  nights : ℚ
  occupancyPct : ℚ
  pax : ℚ
  roomRevenue : ℚ
  revenuePct : ℚ
  arr : ℚ
  arp : ℚ
deriving DecidableEq, Repr

/-- Record built from a data row in the 8-column branch
(src/Dashboard1.py lines 48-52): positional assignment
`['Sales Person Name', 'Nights', 'Occupancy %', 'Pax', 'Room Revenue',
'Revenue%', 'ARR', 'ARP']`. -/
def buildRow8 (r : List Cell) : CanonicalRow :=
  { name := getCell r 0
    nights := normalizeCell (getCell r 1)
    occupancyPct := normalizeCell (getCell r 2)
    pax := normalizeCell (getCell r 3)
    roomRevenue := normalizeCell (getCell r 4)
    revenuePct := normalizeCell (getCell r 5)
    arr := normalizeCell (getCell r 6)
    arp := normalizeCell (getCell r 7) }

/-- Record built from a data row in the 7-column branch
(src/Dashboard1.py lines 53-58): positional assignment without `Revenue%`,
which is synthesized as the constant 0 (`df['Revenue%'] = 0`, later passed
through the same numeric normalization). -/
def buildRow7 (r : List Cell) : CanonicalRow :=
  { name := getCell r 0
    nights := normalizeCell (getCell r 1)
    occupancyPct := normalizeCell (getCell r 2)
    pax := normalizeCell (getCell r 3)
    roomRevenue := normalizeCell (getCell r 4)
    revenuePct := normalizeCell (some "0")
    arr := normalizeCell (getCell r 5)
    arp := normalizeCell (getCell r 6) }

/-- The error message of the unsupported-column-count branch
(src/Dashboard1.py line 60). -/
def unsupportedMsg (col_count : Nat) : String :=
  s!"Unsupported file format. Found {col_count} columns."

/-- `clean_uploaded_data` (src/Dashboard1.py lines 38-80) applied to the
DataFrame delivered by `pd.read_excel`: drop a leading `Unnamed` column,
rename positionally according to the column count (8 or 7 columns, any
other count raises `ValueError`), drop `NaN` and aggregate-name rows, and
numerically normalize the seven numeric columns.  Accessing `columns[0]`
of an empty column list raises an `IndexError` in Python. -/
def clean_uploaded_data (df : DataFrame) : Except String (List CanonicalRow) :=
  match df.columns with
  | [] => Except.error "IndexError"
  | c0 :: rest =>
    let dropFirst := "Unnamed".toList.isPrefixOf c0.toList
    let cols : List String := if dropFirst then rest else c0 :: rest
    let data : List (List Cell) := if dropFirst then df.data.map List.tail else df.data
    let col_count := cols.length
    if col_count = 8 then
      Except.ok ((data.filter (fun r => rowKept (getCell r 0))).map buildRow8)
    else if col_count = 7 then
      Except.ok ((data.filter (fun r => rowKept (getCell r 0))).map buildRow7)
    else
      Except.error (unsupportedMsg col_count)

/-- Variant of `clean_uploaded_data` that performs numeric normalization
BEFORE row filtering — the step order stated by the spec (its §4.2: row
filtering happens after numeric normalization).  Used to compare the
observable behaviour of the two orders. -/
def clean_uploaded_data_normFirst (df : DataFrame) : Except String (List CanonicalRow) :=
  match df.columns with
  | [] => Except.error "IndexError"
  | c0 :: rest =>
    let dropFirst := "Unnamed".toList.isPrefixOf c0.toList
    let cols : List String := if dropFirst then rest else c0 :: rest
    let data : List (List Cell) := if dropFirst then df.data.map List.tail else df.data
    let col_count := cols.length
    if col_count = 8 then
      Except.ok ((data.map buildRow8).filter (fun row => rowKept row.name))
    else if col_count = 7 then
      Except.ok ((data.map buildRow7).filter (fun row => rowKept row.name))
    else
      Except.error (unsupportedMsg col_count)

/-- The column count the branch decision is made on: the columns remaining
after the conditional drop of a leading `Unnamed` column. -/
def effectiveColCount (df : DataFrame) : Nat :=
  match df.columns with
  | [] => 0
  | c0 :: rest =>
    if "Unnamed".toList.isPrefixOf c0.toList then rest.length else rest.length + 1

/-- Width of the parsed worksheet region: pandas sizes the frame by the
widest row of the region being parsed. -/
def gridWidth (g : RawGrid) : Nat := g.foldr (fun r acc => max r.length acc) 0

/-- The pandas label of header cell `i`: a `NaN` header cell is labelled
`Unnamed: i`. -/
def pdLabel (i : Nat) (c : Cell) : String :=
  match c with
  | none => s!"Unnamed: {i}"
  | some s => s

/-- `pd.read_excel(file, skiprows=k)`: skip the first `k` rows, use the next
row as the header and the remaining rows as data. -/
def read_excel_at (k : Nat) (g : RawGrid) : DataFrame :=
  match g.drop k with
  | [] => { columns := [], data := [] }
  | hdr :: body =>
    { columns := (List.range (gridWidth (hdr :: body))).map (fun i => pdLabel i (getCell hdr i))
      data := body }

/-- The full pipeline on a raw worksheet:
`clean_uploaded_data(pd.read_excel(file, skiprows=3))`
(src/Dashboard1.py line 40). -/
def clean_from_grid (g : RawGrid) : Except String (List CanonicalRow) :=
  clean_uploaded_data (read_excel_at 3 g)

/-- Number of non-blank cells of a row. -/
def nonEmptyCells (r : List Cell) : Nat := (r.filter Option.isSome).length

/-- Modelled from the spec: the header-row discovery the spec prescribes for
the Loader ("candidate header-row offsets are tried in ascending order
starting from 0 ... accept the first candidate that yields at least five
non-empty columns", offsets 0 through 4).  No such search exists in
src/Dashboard1.py, which hard-codes `skiprows=3`; this definition exists
only to state the comparison. -/
def specHeaderOffset (g : RawGrid) : Option Nat :=
  (List.range 5).find? (fun k => decide (5 ≤ nonEmptyCells ((g.drop k).headD [])))

/-- Character of a decimal digit (inverse of `charDig` on digits). -/
def digChar (d : Nat) : Char :=
  if d < 10 then Char.ofNat (d + 48) else '*'

/-- Little-endian decimal digits of `n`, with explicit fuel (the fuel `n`
itself always suffices). -/
def natDigsAux : Nat → Nat → List Char
  | 0, _ => []
  | _ + 1, 0 => []
  | fuel + 1, n => digChar (n % 10) :: natDigsAux fuel (n / 10)

/-- Big-endian decimal digit string of a natural number. -/
def natDigs (n : Nat) : List Char :=
  if n = 0 then ['0'] else (natDigsAux n n).reverse

/-- The digits-and-point part of the decimal rendering of `n / 10 ^ f`:
integer digits, decimal point, fractional digits (`f = 0` renders with a
trailing `.0`, as Python `str()` does for whole floats). -/
def floatReprNat (n : Nat) (f : Nat) : List Char :=
  let D := natDigs n
  if f = 0 then D ++ ['.', '0']
  else
    let P := List.replicate (f + 1 - D.length) '0' ++ D
    let ip := P.take (P.length - f)
    let fp := P.drop (P.length - f)
    ip ++ '.' :: fp

/-- Exact decimal rendering of the value `m / 10 ^ f`, in Python float
`str()` style: sign, integer digits, decimal point, fractional digits.
Models the `astype(str)` rendering of an already-normalized float column. -/
def floatRepr (m : Int) (f : Nat) : String :=
  String.mk ((if m < 0 then ['-'] else []) ++ floatReprNat m.natAbs f)

/-- The string a normalized cell displays as after
`pd.to_numeric(...).fillna(0)` followed by `astype(str)`: the rendered
parsed value, or `0.0` for cells that failed to parse. -/
def normalizedCellStr (c : Cell) : String :=
  match toNumericCell c with
  | some p => floatRepr p.1 p.2
  | none => floatRepr 0 0

/-- Round `N / D` (with `D > 0`) to the nearest integer, ties to even —
the rounding of Python `format(x, ",.2f")`, taken on exact rationals. -/
def divHalfEven (N D : Int) : Int :=
  let n := N.fdiv D
  let r := N - n * D
  if 2 * r < D then n
  else if D < 2 * r then n + 1
  else if n % 2 = 0 then n else n + 1

/-- Result of Python `float(x)` on a string: a finite value (kept as
mantissa/fracLen), a NaN, an infinity, or a conversion failure. -/
inductive PyVal where
  | fin (m : Int) (f : Nat)
  | pnan
  | pinf
  | pninf
deriving DecidableEq, Repr

/-- Unsigned part of the Python `float` grammar: `inf`/`infinity`/`nan`
(case-insensitive) or a decimal literal.  Exponents and digit underscores
are outside the modelled grammar. -/
def pyFloatCore (l : List Char) (neg : Bool) : Option PyVal :=
  let lc := l.map Char.toLower
  if lc = "inf".toList || lc = "infinity".toList then
    some (if neg then PyVal.pninf else PyVal.pinf)
  else if lc = "nan".toList then some PyVal.pnan
  else
    match parseUnsigned l with
    | some p => some (PyVal.fin (if neg then -(p.1 : Int) else (p.1 : Int)) p.2)
    | none => none

/-- Python `float(x)` on a string: strip surrounding whitespace, read an
optional sign, then the unsigned grammar. -/
def pyFloat (s : String) : Option PyVal :=
  let l := ((s.toList.dropWhile Char.isWhitespace).reverse.dropWhile Char.isWhitespace).reverse
  match l with
  | '-' :: t => pyFloatCore t true
  | '+' :: t => pyFloatCore t false
  | _ => pyFloatCore l false

/-- Pairs of characters taken from the front of a list (a final odd
character forms a singleton group). -/
def chunk2 : List Char → List (List Char)
  | [] => []
  | [a] => [[a]]
  | a :: b :: t => [a, b] :: chunk2 t

/-- `",".join(...)` on character-list groups. -/
def commaJoin : List (List Char) → List Char
  | [] => []
  | [a] => a
  | a :: t => a ++ ',' :: commaJoin t

/-- The regrouping of the de-comma-ed `parts[0]` string (sign included) done
by `format_inr` (src/Dashboard1.py lines 26-32): when it is longer than
three characters, slice off the last three and regroup the remainder in
twos from the right, joined by commas; otherwise leave it as is. -/
def inrGroup (integer : List Char) : List Char :=
  if 3 < integer.length then
    commaJoin (((chunk2 (integer.take (integer.length - 3)).reverse).map List.reverse).reverse)
      ++ ',' :: integer.drop (integer.length - 3)
  else integer

/-- `format_inr` (src/Dashboard1.py lines 16-32).  `float(amount)` failure
returns the literal `₹0.00`; a finite value is formatted to two decimals
(half-even) and its integer digits regrouped Indian-style via `inrGroup`;
a NaN or infinite value makes `s.split(".")` produce a single part, so the
`parts[1]` access raises an uncaught `IndexError`. -/
def format_inr (x : String) : Except String String :=
  match pyFloat x with
  | none => Except.ok "₹0.00"
  | some (PyVal.fin m f) =>
    let c := divHalfEven (m * 100) ((10 : Int) ^ f)
    let integer := (if c < 0 then ['-'] else []) ++ natDigs (c.natAbs / 100)
    Except.ok (String.mk ('₹' :: inrGroup integer ++
      '.' :: [digChar (c.natAbs % 100 / 10), digChar (c.natAbs % 10)]))
  | some _ => Except.error "IndexError"

/-- Whether the first column label triggers the `Unnamed` drop
(src/Dashboard1.py line 43). -/
def unnamed0 (cols : List String) : Bool :=
  match cols with
  | [] => false
  | c0 :: _ => "Unnamed".toList.isPrefixOf c0.toList

/-- A cell whose numeric parse (if any) yields a non-negative mantissa:
the hypothesis under which normalization is non-negative. -/
def cellNonNeg (c : Cell) : Prop :=
  ∀ m : Int, ∀ f : Nat, toNumericCell c = some (m, f) → 0 ≤ m

/-! ### Concrete fixtures used by counterexamples and witnesses -/

/-- Labels of the canonical 8-column export, in canonical order. -/
def canonicalLabels : List String :=
  ["Sales Executive", "Nights", "Occ %", "Pax", "Room Revenue", "Rev%", "ARR", "ARP"]

/-- The canonical labels with the Nights and Pax columns interchanged. -/
def swappedLabels : List String :=
  ["Sales Executive", "Pax", "Occ %", "Nights", "Room Revenue", "Rev%", "ARR", "ARP"]

/-- One data row, cells in canonical column order. -/
def rowSharma : List Cell :=
  [some "A. Sharma", some "10", some "55.5", some "4", some "₹1,20,000.00",
   some "12", some "₹12,000.00", some "₹3,000.00"]

/-- The same cells, each following its column under the Nights/Pax swap. -/
def rowSharmaSwapped : List Cell :=
  [some "A. Sharma", some "4", some "55.5", some "10", some "₹1,20,000.00",
   some "12", some "₹12,000.00", some "₹3,000.00"]

/-- 8-column frame in canonical column order. -/
def dfCanonical : DataFrame := { columns := canonicalLabels, data := [rowSharma] }

/-- The same frame with the Nights and Pax columns (labels and cells) swapped. -/
def dfSwapped : DataFrame := { columns := swappedLabels, data := [rowSharmaSwapped] }

/-- The record `clean_uploaded_data` produces for `dfCanonical`. -/
def sharmaRow : CanonicalRow :=
  { name := some "A. Sharma", nights := decVal 10 0, occupancyPct := decVal 555 1,
    pax := decVal 4 0, roomRevenue := decVal 12000000 2, revenuePct := decVal 12 0,
    arr := decVal 1200000 2, arp := decVal 300000 2 }

/-- The record `clean_uploaded_data` produces for `dfSwapped`: the Nights and
Pax values land in each other's fields. -/
def sharmaRowSwapped : CanonicalRow :=
  { name := some "A. Sharma", nights := decVal 4 0, occupancyPct := decVal 555 1,
    pax := decVal 10 0, roomRevenue := decVal 12000000 2, revenuePct := decVal 12 0,
    arr := decVal 1200000 2, arp := decVal 300000 2 }

/-- A raw worksheet whose header row sits at offset 0 (all four rows have
eight non-blank cells, so offset 0 already yields eight non-empty columns). -/
def gridHeaderAtZero : RawGrid :=
  [[some "Sales Executive", some "Nights", some "Occ %", some "Pax",
    some "Room Revenue", some "Rev%", some "ARR", some "ARP"],
   [some "Alice", some "1", some "2", some "3", some "4", some "5", some "6", some "7"],
   [some "Bob", some "1", some "2", some "3", some "4", some "5", some "6", some "7"],
   [some "Carol", some "1", some "2", some "3", some "4", some "5", some "6", some "7"]]

/-- The record the data rows of `gridHeaderAtZero` reconcile to when the
header is read at offset 0 (name varies per row). -/
def offsetZeroRow (n : String) : CanonicalRow :=
  { name := some n, nights := decVal 1 0, occupancyPct := decVal 2 0,
    pax := decVal 3 0, roomRevenue := decVal 4 0, revenuePct := decVal 5 0,
    arr := decVal 6 0, arp := decVal 7 0 }

/-- The grid of the ambiguous-revenue scenario: columns Name/Qty/Comments. -/
def dfAmbiguous : DataFrame :=
  { columns := ["Name", "Qty", "Comments"], data := [[some "A", some "2", some "x"]] }

/-- A frame whose PersonName column holds `Undefined`, the empty string and
`Grand Total`. -/
def dfExclusion : DataFrame :=
  { columns := canonicalLabels
    data := [[some "Undefined", some "1", some "1", some "1", some "1", some "1", some "1", some "1"],
             [some "", some "1", some "1", some "1", some "1", some "1", some "1", some "1"],
             [some "Grand Total", some "9", some "9", some "9", some "9", some "9", some "9", some "9"]] }

/-- The output record of the `Undefined` row of `dfExclusion`. -/
def undefinedRow : CanonicalRow :=
  { name := some "Undefined", nights := decVal 1 0, occupancyPct := decVal 1 0,
    pax := decVal 1 0, roomRevenue := decVal 1 0, revenuePct := decVal 1 0,
    arr := decVal 1 0, arp := decVal 1 0 }

/-- The output record of the empty-name row of `dfExclusion`. -/
def emptyNameRow : CanonicalRow :=
  { name := some "", nights := decVal 1 0, occupancyPct := decVal 1 0,
    pax := decVal 1 0, roomRevenue := decVal 1 0, revenuePct := decVal 1 0,
    arr := decVal 1 0, arp := decVal 1 0 }

/-- A frame with a negative Nights cell. -/
def dfNegative : DataFrame :=
  { columns := canonicalLabels
    data := [[some "Alice", some "-5", some "1", some "1", some "1", some "1", some "1", some "1"]] }

/-- The output record of `dfNegative`: the negative value passes through. -/
def negativeRow : CanonicalRow :=
  { name := some "Alice", nights := decVal (-5) 0, occupancyPct := decVal 1 0,
    pax := decVal 1 0, roomRevenue := decVal 1 0, revenuePct := decVal 1 0,
    arr := decVal 1 0, arp := decVal 1 0 }

/-- A frame with only a PersonName and a revenue column. -/
def dfTwoCol : DataFrame :=
  { columns := ["Sales Person Name", "Room Revenue"], data := [[some "Amy", some "100"]] }

/-- A 7-column frame (Revenue% absent). -/
def dfSeven : DataFrame :=
  { columns := ["Sales Person Name", "Nights", "Occupancy %", "Pax", "Room Revenue", "ARR", "ARP"]
    data := [[some "Bea", some "1", some "1", some "1", some "1", some "1", some "1"]] }

/-- The output record of `dfSeven`: Revenue% synthesized as 0. -/
def sevenRow : CanonicalRow :=
  { name := some "Bea", nights := decVal 1 0, occupancyPct := decVal 1 0,
    pax := decVal 1 0, roomRevenue := decVal 1 0, revenuePct := decVal 0 0,
    arr := decVal 1 0, arp := decVal 1 0 }

/-! ### Digit-level helper lemmas -/

theorem charDig_digChar (d : Nat) (hd : d < 10) : charDig (digChar d) = some d := by
  interval_cases d <;> rfl

theorem digChar_not_special (d : Nat) (hd : d < 10) :
    digChar d ≠ '.' ∧ digChar d ≠ '-' ∧ digChar d ≠ '+' ∧ digChar d ≠ '₹' ∧
    digChar d ≠ ',' ∧ (digChar d).isWhitespace = false := by
  interval_cases d <;> exact ⟨by decide, by decide, by decide, by decide, by decide, by decide⟩

theorem natDigsAux_mem (fuel : Nat) :
    ∀ n, ∀ c ∈ natDigsAux fuel n, ∃ d, d < 10 ∧ c = digChar d := by
  induction fuel with
  | zero => intro n c hc; simp [natDigsAux] at hc
  | succ fuel ih =>
    intro n c hc
    match n with
    | 0 => simp [natDigsAux] at hc
    | n + 1 =>
      rw [show natDigsAux (fuel + 1) (n + 1) =
            digChar ((n + 1) % 10) :: natDigsAux fuel ((n + 1) / 10) from rfl] at hc
      rcases List.mem_cons.mp hc with h | h
      · exact ⟨(n + 1) % 10, Nat.mod_lt _ (by norm_num), h⟩
      · exact ih _ c h

theorem natDigs_mem (n : Nat) : ∀ c ∈ natDigs n, ∃ d, d < 10 ∧ c = digChar d := by
  intro c hc
  unfold natDigs at hc
  split at hc
  · simp at hc; exact ⟨0, by norm_num, hc⟩
  · exact natDigsAux_mem n n c (List.mem_reverse.mp hc)

theorem natDigs_ne_nil (n : Nat) : natDigs n ≠ [] := by
  unfold natDigs
  split
  · simp
  · rename_i h
    match n, h with
    | n + 1, _ =>
      rw [show natDigsAux (n + 1) (n + 1) =
            digChar ((n + 1) % 10) :: natDigsAux n ((n + 1) / 10) from rfl]
      simp

theorem digsValAux_append (acc : Option Nat) (A B : List Char) :
    digsValAux acc (A ++ B) = digsValAux (digsValAux acc A) B :=
  List.foldl_append digStep acc A B

theorem digsValAux_digits (l : List Char) (hl : ∀ c ∈ l, ∃ d, d < 10 ∧ c = digChar d) :
    ∃ v, ∀ a, digsValAux (some a) l = some (a * 10 ^ l.length + v) := by
  induction l with
  | nil => exact ⟨0, fun a => by simp [digsValAux]⟩
  | cons c t ih =>
    obtain ⟨d, hd, rfl⟩ := hl c (by simp)
    obtain ⟨v, hv⟩ := ih (fun x hx => hl x (by simp [hx]))
    refine ⟨d * 10 ^ t.length + v, fun a => ?_⟩
    have hstep : digStep (some a) (digChar d) = some (a * 10 + d) := by
      simp [digStep, charDig_digChar d hd]
    calc digsValAux (some a) (digChar d :: t)
        = digsValAux (some (a * 10 + d)) t := by
          simp [digsValAux, List.foldl_cons, hstep]
      _ = some ((a * 10 + d) * 10 ^ t.length + v) := hv _
      _ = some (a * 10 ^ (digChar d :: t).length + (d * 10 ^ t.length + v)) := by
          refine congrArg some ?_
          simp [List.length_cons, pow_succ]
          ring

theorem digsValAux_natDigsAux (fuel : Nat) :
    ∀ n a, n ≤ fuel → digsValAux (some a) ((natDigsAux fuel n).reverse) =
      some (a * 10 ^ (natDigsAux fuel n).length + n) := by
  induction fuel with
  | zero =>
    intro n a hn
    interval_cases n
    simp [natDigsAux, digsValAux]
  | succ fuel ih =>
    intro n a hn
    match n with
    | 0 => simp [natDigsAux, digsValAux]
    | n + 1 =>
      have hdiv : (n + 1) / 10 ≤ fuel :=
        Nat.le_of_lt_succ (Nat.lt_of_lt_of_le (Nat.div_lt_self (Nat.succ_pos n) (by norm_num)) hn)
      rw [show natDigsAux (fuel + 1) (n + 1) =
            digChar ((n + 1) % 10) :: natDigsAux fuel ((n + 1) / 10) from rfl]
      rw [List.reverse_cons, digsValAux_append, ih ((n + 1) / 10) a hdiv]
      have hd : (n + 1) % 10 < 10 := Nat.mod_lt _ (by norm_num)
      have hstep : ∀ b : Nat, digsValAux (some b) [digChar ((n + 1) % 10)] =
          some (b * 10 + (n + 1) % 10) := by
        intro b
        simp [digsValAux, digStep, charDig_digChar _ hd]
      rw [hstep]
      refine congrArg some ?_
      have h1 : 10 * ((n + 1) / 10) + (n + 1) % 10 = n + 1 := Nat.div_add_mod (n + 1) 10
      set L := (natDigsAux fuel ((n + 1) / 10)).length with hL
      calc (a * 10 ^ L + (n + 1) / 10) * 10 + (n + 1) % 10
          = a * (10 ^ L * 10) + (10 * ((n + 1) / 10) + (n + 1) % 10) := by ring
        _ = a * 10 ^ (digChar ((n + 1) % 10) :: natDigsAux fuel ((n + 1) / 10)).length + (n + 1) := by
            rw [h1, List.length_cons, pow_succ]

theorem digsVal_natDigs (n : Nat) : digsVal (natDigs n) = some n := by
  unfold digsVal natDigs
  split
  · rename_i h
    subst h
    rfl
  · have := digsValAux_natDigsAux n n 0 le_rfl
    simpa using this

theorem digsValAux_replicate_zero (k : Nat) :
    ∀ a, digsValAux (some a) (List.replicate k '0') = some (a * 10 ^ k) := by
  induction k with
  | zero => intro a; simp [digsValAux]
  | succ k ih =>
    intro a
    rw [List.replicate_succ]
    have hstep : digStep (some a) '0' = some (a * 10) := rfl
    calc digsValAux (some a) ('0' :: List.replicate k '0')
        = digsValAux (some (a * 10)) (List.replicate k '0') := by
          simp [digsValAux, List.foldl_cons, hstep]
      _ = some (a * 10 * 10 ^ k) := ih _
      _ = some (a * 10 ^ (k + 1)) := by rw [pow_succ]; ring_nf

/-! ### Splitting and parsing the rendered decimal -/

theorem splitDot_no_dot (A : List Char) (hA : ∀ c ∈ A, c ≠ '.') :
    splitDot A = (A, none) := by
  induction A with
  | nil => rfl
  | cons c t ih =>
    have hc : c ≠ '.' := hA c (by simp)
    simp [splitDot, hc, ih (fun x hx => hA x (by simp [hx]))]

theorem splitDot_append (A B : List Char) (hA : ∀ c ∈ A, c ≠ '.') :
    splitDot (A ++ '.' :: B) = (A, some B) := by
  induction A with
  | nil => simp [splitDot]
  | cons c t ih =>
    have hc : c ≠ '.' := hA c (by simp)
    simp [splitDot, hc, ih (fun x hx => hA x (by simp [hx]))]

theorem parseUnsigned_eq_of_split (l as bs : List Char) (h : splitDot l = (as, some bs)) :
    parseUnsigned l =
      if as.isEmpty && bs.isEmpty then none
      else
        match digsVal as, digsVal bs with
        | some a, some b => some (a * 10 ^ bs.length + b, bs.length)
        | _, _ => none := by
  unfold parseUnsigned
  rw [h]

theorem digChar_ne_dot {c : Char} (h : ∃ d, d < 10 ∧ c = digChar d) : c ≠ '.' := by
  obtain ⟨d, hd, rfl⟩ := h
  exact (digChar_not_special d hd).1

theorem parseUnsigned_pointed (ipl fpl : List Char)
    (hip : ∀ c ∈ ipl, ∃ d, d < 10 ∧ c = digChar d)
    (hfp : ∀ c ∈ fpl, ∃ d, d < 10 ∧ c = digChar d)
    (hne : ipl ≠ []) :
    ∃ a b, digsVal ipl = some a ∧ digsVal fpl = some b ∧
      parseUnsigned (ipl ++ '.' :: fpl) = some (a * 10 ^ fpl.length + b, fpl.length) := by
  obtain ⟨a, ha⟩ := digsValAux_digits ipl hip
  obtain ⟨b, hb⟩ := digsValAux_digits fpl hfp
  have hda : digsVal ipl = some a := by simpa using ha 0
  have hdb : digsVal fpl = some b := by simpa using hb 0
  refine ⟨a, b, hda, hdb, ?_⟩
  have hnodot : ∀ c ∈ ipl, c ≠ '.' := fun c hc => digChar_ne_dot (hip c hc)
  rw [parseUnsigned_eq_of_split _ ipl fpl (splitDot_append ipl fpl hnodot)]
  have hemp : ipl.isEmpty = false := by
    cases ipl with
    | nil => exact absurd rfl hne
    | cons x xs => rfl
  simp [hemp, hda, hdb]

theorem natDigs_zero_case : natDigs 0 = ['0'] := rfl

theorem parseUnsigned_floatReprNat (n f : Nat) :
    parseUnsigned (floatReprNat n f) = if f = 0 then some (n * 10, 1) else some (n, f) := by
  by_cases hf : f = 0
  · subst hf
    rw [if_pos rfl]
    have hnodot : ∀ c ∈ natDigs n, c ≠ '.' := fun c hc => digChar_ne_dot (natDigs_mem n c hc)
    have hflo : floatReprNat n 0 = natDigs n ++ '.' :: ['0'] := by
      unfold floatReprNat
      simp
    rw [hflo, parseUnsigned_eq_of_split _ (natDigs n) ['0'] (splitDot_append _ _ hnodot)]
    have hdn : digsVal (natDigs n) = some n := digsVal_natDigs n
    simp [hdn]
    rfl
  · rw [if_neg hf]
    have hfpos : 0 < f := Nat.pos_of_ne_zero hf
    have hPmem : ∀ c ∈ List.replicate (f + 1 - (natDigs n).length) '0' ++ natDigs n,
        ∃ d, d < 10 ∧ c = digChar d := by
      intro c hc
      rcases List.mem_append.mp hc with h | h
      · exact ⟨0, by norm_num, (List.eq_of_mem_replicate h)⟩
      · exact natDigs_mem n c h
    set P : List Char := List.replicate (f + 1 - (natDigs n).length) '0' ++ natDigs n with hP
    have hPlen : f + 1 ≤ P.length := by
      rw [hP, List.length_append, List.length_replicate]
      omega
    have hflo : floatReprNat n f = P.take (P.length - f) ++ '.' :: P.drop (P.length - f) := by
      unfold floatReprNat
      rw [if_neg hf]
    have hipmem : ∀ c ∈ P.take (P.length - f), ∃ d, d < 10 ∧ c = digChar d :=
      fun c hc => hPmem c (List.take_subset _ _ hc)
    have hfpmem : ∀ c ∈ P.drop (P.length - f), ∃ d, d < 10 ∧ c = digChar d :=
      fun c hc => hPmem c (List.drop_subset _ _ hc)
    have hiplen : (P.take (P.length - f)).length = P.length - f := by
      rw [List.length_take]
      omega
    have hfplen : (P.drop (P.length - f)).length = f := by
      rw [List.length_drop]
      omega
    have hipne : P.take (P.length - f) ≠ [] := by
      have : 0 < (P.take (P.length - f)).length := by omega
      exact List.ne_nil_of_length_pos this
    obtain ⟨a, b, hda, hdb, hpu⟩ := parseUnsigned_pointed _ _ hipmem hfpmem hipne
    -- total value of P is n
    have hPval : digsVal P = some n := by
      rw [hP]
      unfold digsVal
      rw [digsValAux_append, digsValAux_replicate_zero]
      simpa using digsVal_natDigs n
    have hsplitP : P.take (P.length - f) ++ P.drop (P.length - f) = P :=
      List.take_append_drop _ _
    obtain ⟨b2, hb2⟩ := digsValAux_digits (P.drop (P.length - f)) hfpmem
    have hb2b : b2 = b := by
      have := hb2 0
      rw [show digsValAux (some 0) (P.drop (P.length - f)) = digsVal (P.drop (P.length - f)) from rfl,
        hdb] at this
      simp at this
      omega
    have hcomb : digsValAux (some a) (P.drop (P.length - f)) =
        some (a * 10 ^ f + b) := by
      rw [hb2 a, hb2b, hfplen]
    have hPval2 : digsVal P = some (a * 10 ^ f + b) := by
      conv_lhs => rw [← hsplitP]
      unfold digsVal
      rw [digsValAux_append]
      rw [show digsValAux (some 0) (P.take (P.length - f)) = digsVal (P.take (P.length - f)) from rfl,
        hda]
      exact hcomb
    have hn : a * 10 ^ f + b = n := by
      rw [hPval] at hPval2
      exact (Option.some_inj.mp hPval2).symm
    rw [hflo, hpu, hfplen, hn]

/-! ### Shape of the rendered decimal and round-trip -/

theorem floatReprNat_decomp (n f : Nat) :
    ∃ ipl fpl : List Char, floatReprNat n f = ipl ++ '.' :: fpl ∧ ipl ≠ [] ∧
      (∀ c ∈ ipl, ∃ d, d < 10 ∧ c = digChar d) ∧
      (∀ c ∈ fpl, ∃ d, d < 10 ∧ c = digChar d) := by
  by_cases hf : f = 0
  · subst hf
    refine ⟨natDigs n, ['0'], ?_, natDigs_ne_nil n, natDigs_mem n, ?_⟩
    · unfold floatReprNat
      simp
    · intro c hc
      simp at hc
      exact ⟨0, by norm_num, hc⟩
  · have hPmem : ∀ c ∈ List.replicate (f + 1 - (natDigs n).length) '0' ++ natDigs n,
        ∃ d, d < 10 ∧ c = digChar d := by
      intro c hc
      rcases List.mem_append.mp hc with h | h
      · exact ⟨0, by norm_num, (List.eq_of_mem_replicate h)⟩
      · exact natDigs_mem n c h
    set P : List Char := List.replicate (f + 1 - (natDigs n).length) '0' ++ natDigs n with hP
    have hPlen : f + 1 ≤ P.length := by
      rw [hP, List.length_append, List.length_replicate]
      omega
    have hipne : P.take (P.length - f) ≠ [] := by
      have hlen : (P.take (P.length - f)).length = P.length - f := by
        rw [List.length_take]
        omega
      have : 0 < (P.take (P.length - f)).length := by omega
      exact List.ne_nil_of_length_pos this
    refine ⟨P.take (P.length - f), P.drop (P.length - f), ?_, hipne, ?_, ?_⟩
    · unfold floatReprNat
      rw [if_neg hf]
    · exact fun c hc => hPmem c (List.take_subset _ _ hc)
    · exact fun c hc => hPmem c (List.drop_subset _ _ hc)

theorem floatReprNat_head (n f : Nat) :
    ∃ c t, floatReprNat n f = c :: t ∧ ∃ d, d < 10 ∧ c = digChar d := by
  obtain ⟨ipl, fpl, heq, hne, hip, _⟩ := floatReprNat_decomp n f
  cases hc : ipl with
  | nil => exact absurd hc hne
  | cons c t =>
    refine ⟨c, t ++ '.' :: fpl, ?_, hip c (by rw [hc]; simp)⟩
    rw [heq, hc]
    simp

theorem floatRepr_toList (m : Int) (f : Nat) :
    (floatRepr m f).toList = (if m < 0 then ['-'] else []) ++ floatReprNat m.natAbs f := rfl

theorem floatRepr_chars (m : Int) (f : Nat) :
    ∀ c ∈ (floatRepr m f).toList, c ≠ '₹' ∧ c ≠ ',' ∧ c.isWhitespace = false := by
  intro c hc
  rw [floatRepr_toList] at hc
  rcases List.mem_append.mp hc with h | h
  · split at h
    · simp at h
      subst h
      exact ⟨by decide, by decide, by decide⟩
    · simp at h
  · obtain ⟨ipl, fpl, heq, _, hip, hfp⟩ := floatReprNat_decomp m.natAbs f
    rw [heq] at h
    have hdig : (∃ d, d < 10 ∧ c = digChar d) → c ≠ '₹' ∧ c ≠ ',' ∧ c.isWhitespace = false := by
      rintro ⟨d, hd, rfl⟩
      obtain ⟨_, _, _, h4, h5, h6⟩ := digChar_not_special d hd
      exact ⟨h4, h5, h6⟩
    rcases List.mem_append.mp h with h | h
    · exact hdig (hip c h)
    · rcases List.mem_cons.mp h with h | h
      · subst h
        exact ⟨by decide, by decide, by decide⟩
      · exact hdig (hfp c h)

theorem cleanChars_of_plain (l : List Char)
    (h : ∀ c ∈ l, c ≠ '₹' ∧ c ≠ ',' ∧ c.isWhitespace = false) :
    cleanChars (String.mk l) = l := by
  unfold cleanChars
  have htl : (String.mk l).toList = l := rfl
  rw [htl]
  have hfilter : l.filter (fun c => !(c = '₹') && !(c = ',')) = l := by
    rw [List.filter_eq_self]
    intro c hc
    obtain ⟨h1, h2, _⟩ := h c hc
    simp [h1, h2]
  rw [hfilter]
  show ((l.dropWhile Char.isWhitespace).reverse.dropWhile Char.isWhitespace).reverse = l
  have hdw1 : l.dropWhile Char.isWhitespace = l := by
    cases hl : l with
    | nil => rfl
    | cons c t =>
      have := (h c (by rw [hl]; simp)).2.2
      simp [List.dropWhile_cons, this]
  rw [hdw1]
  have hdw2 : l.reverse.dropWhile Char.isWhitespace = l.reverse := by
    cases hr : l.reverse with
    | nil => rfl
    | cons c t =>
      have hcmem : c ∈ l := by
        rw [← List.mem_reverse, hr]
        simp
      simp [List.dropWhile_cons, (h c hcmem).2.2]
  rw [hdw2, List.reverse_reverse]

theorem cleanChars_floatRepr (m : Int) (f : Nat) :
    cleanChars (floatRepr m f) = (floatRepr m f).toList := by
  have h := cleanChars_of_plain ((floatRepr m f).toList) (floatRepr_chars m f)
  have hmk : String.mk ((floatRepr m f).toList) = floatRepr m f := rfl
  rw [hmk] at h
  exact h

theorem decVal_shift (m : Int) : decVal (m * 10) 1 = decVal m 0 := by
  unfold decVal
  push_cast
  field_simp

theorem parseSigned_cons (c : Char) (t : List Char) :
    parseSigned (c :: t) =
      if c = '-' then (parseUnsigned t).map (fun p => (-(p.1 : Int), p.2))
      else if c = '+' then (parseUnsigned t).map (fun p => ((p.1 : Int), p.2))
      else (parseUnsigned (c :: t)).map (fun p => ((p.1 : Int), p.2)) := rfl

theorem parseSigned_floatRepr (m : Int) (f : Nat) :
    ∃ p : Int × Nat, parseSigned ((floatRepr m f).toList) = some p ∧
      decVal p.1 p.2 = decVal m f := by
  obtain ⟨c, t, hct, d, hd, hcd⟩ := floatReprNat_head m.natAbs f
  have hcneg : c ≠ '-' := by
    subst hcd
    exact (digChar_not_special d hd).2.1
  have hcpos : c ≠ '+' := by
    subst hcd
    exact (digChar_not_special d hd).2.2.1
  have hpu := parseUnsigned_floatReprNat m.natAbs f
  by_cases hm : m < 0
  · have hcast : ((m.natAbs : Nat) : Int) = -m :=
      Int.ofNat_natAbs_of_nonpos (le_of_lt hm)
    have htl : (floatRepr m f).toList = '-' :: floatReprNat m.natAbs f := by
      rw [floatRepr_toList, if_pos hm]
      rfl
    have hps : parseSigned ((floatRepr m f).toList) =
        (parseUnsigned (floatReprNat m.natAbs f)).map (fun p => (-(p.1 : Int), p.2)) := by
      rw [htl, parseSigned_cons, if_pos rfl]
    by_cases hf : f = 0
    · subst hf
      rw [if_pos rfl] at hpu
      refine ⟨(-(((m.natAbs * 10 : Nat) : Int)), 1), ?_, ?_⟩
      · rw [hps, hpu]
        rfl
      · have h1 : (-(((m.natAbs * 10 : Nat) : Int))) = m * 10 := by
          push_cast [hcast]
          ring
        rw [h1]
        exact decVal_shift m
    · rw [if_neg hf] at hpu
      refine ⟨(-((m.natAbs : Nat) : Int), f), ?_, ?_⟩
      · rw [hps, hpu]
        rfl
      · rw [hcast, neg_neg]
  · have hcast : ((m.natAbs : Nat) : Int) = m :=
      Int.natAbs_of_nonneg (not_lt.mp hm)
    have htl : (floatRepr m f).toList = c :: t := by
      rw [floatRepr_toList, if_neg hm, hct]
      rfl
    have hps : parseSigned ((floatRepr m f).toList) =
        (parseUnsigned (floatReprNat m.natAbs f)).map (fun p => ((p.1 : Int), p.2)) := by
      rw [htl, parseSigned_cons, if_neg hcneg, if_neg hcpos, ← hct]
    by_cases hf : f = 0
    · subst hf
      rw [if_pos rfl] at hpu
      refine ⟨(((m.natAbs * 10 : Nat) : Int), 1), ?_, ?_⟩
      · rw [hps, hpu]
        rfl
      · have h1 : (((m.natAbs * 10 : Nat) : Int)) = m * 10 := by
          push_cast [hcast]
          ring
        rw [h1]
        exact decVal_shift m
    · rw [if_neg hf] at hpu
      refine ⟨(((m.natAbs : Nat) : Int), f), ?_, ?_⟩
      · rw [hps, hpu]
        rfl
      · rw [hcast]

theorem toNumericCell_floatRepr (m : Int) (f : Nat) :
    toNumericCell (some (floatRepr m f)) = parseSigned ((floatRepr m f).toList) := by
  unfold toNumericCell cellToStr
  rw [cleanChars_floatRepr]

/-! ### Pipeline structure lemmas -/

theorem getCell_tail (r : List Cell) (i : Nat) : getCell r.tail i = getCell r (i + 1) := by
  cases r with
  | nil => rfl
  | cons c t => rfl

theorem cellNonNeg_none : cellNonNeg none := by
  intro m f h
  rw [show toNumericCell none = none from rfl] at h
  exact Option.noConfusion h

theorem cellNonNeg_of_none (c : Cell) (hp : toNumericCell c = none) : cellNonNeg c := by
  intro m f h
  rw [hp] at h
  exact Option.noConfusion h

theorem cellNonNeg_of (c : Cell) (m : Int) (f : Nat)
    (hp : toNumericCell c = some (m, f)) (hm : 0 ≤ m) : cellNonNeg c := by
  intro m2 f2 h2
  rw [hp] at h2
  cases Option.some_inj.mp h2
  exact hm

theorem normalizeCell_nonneg (c : Cell) (h : cellNonNeg c) : 0 ≤ normalizeCell c := by
  unfold normalizeCell
  cases hp : toNumericCell c with
  | none => norm_num
  | some p =>
    have hm : 0 ≤ p.1 := h p.1 p.2 (by rw [hp])
    unfold decVal
    have h1 : (0 : ℚ) ≤ (p.1 : ℚ) := by exact_mod_cast hm
    have h2 : (0 : ℚ) ≤ (10 : ℚ) ^ p.2 := by positivity
    exact div_nonneg h1 h2

theorem clean_ok_cases (cols : List String) (data : List (List Cell)) (t : List CanonicalRow)
    (h : clean_uploaded_data ⟨cols, data⟩ = Except.ok t) :
    ∃ d2 : List (List Cell),
      (d2 = data ∨ d2 = data.map List.tail) ∧
      ((effectiveColCount ⟨cols, data⟩ = 8 ∧
        t = (d2.filter (fun r => rowKept (getCell r 0))).map buildRow8) ∨
       (effectiveColCount ⟨cols, data⟩ = 7 ∧
        t = (d2.filter (fun r => rowKept (getCell r 0))).map buildRow7)) := by
  cases cols with
  | nil => exact absurd h (by simp [clean_uploaded_data])
  | cons c0 rest =>
    unfold clean_uploaded_data at h
    unfold effectiveColCount
    simp only at h ⊢
    by_cases hu : ("Unnamed".toList.isPrefixOf c0.toList) = true
    · simp only [hu, if_true] at h ⊢
      by_cases h8 : rest.length = 8
      · rw [if_pos h8] at h
        exact ⟨data.map List.tail, Or.inr rfl, Or.inl ⟨h8, (Except.ok.inj h).symm⟩⟩
      · rw [if_neg h8] at h
        by_cases h7 : rest.length = 7
        · rw [if_pos h7] at h
          exact ⟨data.map List.tail, Or.inr rfl, Or.inr ⟨h7, (Except.ok.inj h).symm⟩⟩
        · rw [if_neg h7] at h
          exact Except.noConfusion h
    · rw [Bool.not_eq_true] at hu
      simp only [hu, if_neg Bool.false_ne_true] at h ⊢
      by_cases h8 : (c0 :: rest).length = 8
      · rw [if_pos h8] at h
        refine ⟨data, Or.inl rfl, Or.inl ⟨?_, (Except.ok.inj h).symm⟩⟩
        simpa using h8
      · rw [if_neg h8] at h
        by_cases h7 : (c0 :: rest).length = 7
        · rw [if_pos h7] at h
          refine ⟨data, Or.inl rfl, Or.inr ⟨?_, (Except.ok.inj h).symm⟩⟩
          simpa using h7
        · rw [if_neg h7] at h
          exact Except.noConfusion h

/-! ### Claims -/

/-- Claim C6: numeric normalization (strip currency symbol, strip
thousands separators, trim, parse as decimal, 0 on failure) is idempotent:
re-normalizing the rendered value of a normalized cell yields the same
value, for every input string; and the quoted literals normalize as
stated: `₹1,234.50` to 1234.50 and `1234.50` to 1234.50. -/
theorem C6_theorem :
    (∀ s : String, normalizeCell (some (normalizedCellStr (some s))) = normalizeCell (some s)) ∧
    normalizeCell (some "₹1,234.50") = 1234.50 ∧
    normalizeCell (some "1234.50") = 1234.50 := by
  refine ⟨?_, ?_, ?_⟩
  · intro s
    cases h : toNumericCell (some s) with
    | none =>
      have hstr : normalizedCellStr (some s) = floatRepr 0 0 := by
        unfold normalizedCellStr
        rw [h]
      have hres : normalizeCell (some s) = 0 := by
        unfold normalizeCell
        rw [h]
      rw [hstr, hres]
      show decVal 0 1 = 0
      norm_num [decVal]
    | some p =>
      obtain ⟨q, hq, hval⟩ := parseSigned_floatRepr p.1 p.2
      have hstr : normalizedCellStr (some s) = floatRepr p.1 p.2 := by
        unfold normalizedCellStr
        rw [h]
      have hL : normalizeCell (some (floatRepr p.1 p.2)) = decVal q.1 q.2 := by
        unfold normalizeCell
        rw [toNumericCell_floatRepr, hq]
      have hR : normalizeCell (some s) = decVal p.1 p.2 := by
        unfold normalizeCell
        rw [h]
      rw [hstr, hL, hR, hval]
  · show decVal 123450 2 = 1234.50
    norm_num [decVal]
  · show decVal 123450 2 = 1234.50
    norm_num [decVal]

/-- Claim C1 (amended): the column-to-field mapping of
`clean_uploaded_data` ignores the column labels entirely (any relabelling
of the same length that keeps the leading-`Unnamed` drop decision gives
the identical output) — it is positional, not keyword-based, so permuting
the columns permutes the field contents instead of preserving them. -/
theorem C1_theorem (cols cols2 : List String) (data : List (List Cell))
    (hlen : cols.length = cols2.length) (hflag : unnamed0 cols = unnamed0 cols2) :
    clean_uploaded_data ⟨cols, data⟩ = clean_uploaded_data ⟨cols2, data⟩ := by
  cases cols with
  | nil =>
    cases cols2 with
    | nil => rfl
    | cons c0 r => simp at hlen
  | cons c0 r =>
    cases cols2 with
    | nil => simp at hlen
    | cons c0' r' =>
      have hr : r.length = r'.length := by simpa using hlen
      have hflag2 : "Unnamed".toList.isPrefixOf c0.toList =
          "Unnamed".toList.isPrefixOf c0'.toList := hflag
      unfold clean_uploaded_data
      simp only
      rw [hflag2]
      by_cases hu : ("Unnamed".toList.isPrefixOf c0'.toList) = true
      · simp only [hu, if_true, hr]
      · rw [Bool.not_eq_true] at hu
        simp only [hu, if_neg Bool.false_ne_true, List.length_cons, hr]

/-- Claim C1 counterexample: the canonical frame and the frame with the
Nights and Pax columns interchanged (labels and cells moved together)
reconcile to different tables: the values land in each other's fields. -/
theorem C1_counterexample :
    clean_uploaded_data dfCanonical = Except.ok [sharmaRow] ∧
    clean_uploaded_data dfSwapped = Except.ok [sharmaRowSwapped] ∧
    sharmaRow.nights ≠ sharmaRowSwapped.nights ∧
    clean_uploaded_data dfSwapped ≠ clean_uploaded_data dfCanonical := by
  refine ⟨rfl, rfl, ?_, ?_⟩
  · show decVal 10 0 ≠ decVal 4 0
    norm_num [decVal]
  · intro heq
    rw [show clean_uploaded_data dfSwapped = Except.ok [sharmaRowSwapped] from rfl,
      show clean_uploaded_data dfCanonical = Except.ok [sharmaRow] from rfl] at heq
    have h1 : sharmaRowSwapped = sharmaRow := by
      have h2 := Except.ok.inj heq
      simpa using h2
    have h2 : sharmaRowSwapped.nights = sharmaRow.nights := by rw [h1]
    revert h2
    show ¬decVal 4 0 = decVal 10 0
    norm_num [decVal]

/-- Claim C1 witness: fully relabelling the canonical frame (different
casing and wording) leaves the output unchanged. -/
theorem C1_witness :
    clean_uploaded_data ⟨["SALES EXEC", "night", "occupancy", "PAX", "room revenue",
      "revenue%", "arr", "arp"], [rowSharma]⟩ = clean_uploaded_data dfCanonical :=
  C1_theorem _ _ _ rfl rfl

/-- Claim C2 (amended): the loader performs no header-row search: it
always skips exactly the first three rows and reads the header at offset 3
(the first three rows are ignored regardless of content), so the pipeline
depends only on the grid from row 3 on. -/
theorem C2_theorem :
    (∀ g g2 : RawGrid, g.drop 3 = g2.drop 3 → clean_from_grid g = clean_from_grid g2) ∧
    (∀ m0 m1 m2 : List Cell, ∀ rest : RawGrid,
      clean_from_grid (m0 :: m1 :: m2 :: rest) = clean_uploaded_data (read_excel_at 0 rest)) := by
  constructor
  · intro g g2 h
    unfold clean_from_grid read_excel_at
    rw [h]
  · intro m0 m1 m2 rest
    rfl

/-- Claim C2 counterexample: `gridHeaderAtZero` has a qualifying header at
offset 0 (eight non-empty columns, so the spec's discovery accepts offset
0), yet the pipeline reads the header at offset 3 and returns the empty
table instead of the three data rows the offset-0 decoding yields. -/
theorem C2_counterexample :
    specHeaderOffset gridHeaderAtZero = some 0 ∧
    clean_from_grid gridHeaderAtZero = Except.ok [] ∧
    clean_uploaded_data (read_excel_at 0 gridHeaderAtZero) =
      Except.ok [offsetZeroRow "Alice", offsetZeroRow "Bob", offsetZeroRow "Carol"] ∧
    (Except.ok [] : Except String (List CanonicalRow)) ≠
      Except.ok [offsetZeroRow "Alice", offsetZeroRow "Bob", offsetZeroRow "Carol"] := by
  refine ⟨rfl, rfl, rfl, ?_⟩
  intro h
  have h2 := Except.ok.inj h
  simp at h2

/-- Claim C2 witness: replacing the three skipped metadata rows changes
nothing. -/
theorem C2_witness :
    clean_from_grid ([] :: [] :: [] :: gridHeaderAtZero.drop 3) =
      clean_from_grid gridHeaderAtZero :=
  C2_theorem.1 _ _ rfl

/-- Claim C3 (amended): a frame whose effective column count is neither 8
nor 7 — for example the `{Name, Qty, Comments}` grid — does not produce a
recoverable ambiguous-revenue result: `clean_uploaded_data` raises the hard
`ValueError` with the unsupported-column-count message, and no override or
re-invocation mechanism exists. -/
theorem C3_theorem (df : DataFrame) (hne : df.columns ≠ [])
    (h8 : effectiveColCount df ≠ 8) (h7 : effectiveColCount df ≠ 7) :
    clean_uploaded_data df = Except.error (unsupportedMsg (effectiveColCount df)) := by
  obtain ⟨cols, data⟩ := df
  cases cols with
  | nil => exact absurd rfl hne
  | cons c0 rest =>
    have heff : effectiveColCount ⟨c0 :: rest, data⟩ =
        (if "Unnamed".toList.isPrefixOf c0.toList = true then rest.length
         else rest.length + 1) := rfl
    unfold clean_uploaded_data
    simp only
    by_cases hu : ("Unnamed".toList.isPrefixOf c0.toList) = true
    · rw [heff, if_pos hu] at h8 h7 ⊢
      simp only [hu, if_true]
      rw [if_neg h8, if_neg h7]
    · rw [Bool.not_eq_true] at hu
      rw [heff] at h8 h7 ⊢
      rw [hu] at h8 h7 ⊢
      rw [if_neg Bool.false_ne_true] at h8 h7 ⊢
      simp only [hu, if_neg Bool.false_ne_true, List.length_cons]
      rw [if_neg h8, if_neg h7]

/-- Claim C3 counterexample: the ambiguous-revenue grid `{Name, Qty,
Comments}` makes `clean_uploaded_data` fail with the hard ValueError
message — there is no recoverable AmbiguousRevenue result. -/
theorem C3_counterexample :
    clean_uploaded_data dfAmbiguous =
      Except.error "Unsupported file format. Found 3 columns." := rfl

/-- Claim C3 witness: the theorem applied to the `{Name, Qty, Comments}`
grid. -/
theorem C3_witness :
    clean_uploaded_data dfAmbiguous =
      Except.error (unsupportedMsg (effectiveColCount dfAmbiguous)) :=
  C3_theorem dfAmbiguous (by decide) (by decide) (by decide)

/-- Claim C4 (amended): a row is dropped if and only if its PersonName
cell is missing (`NaN`) or its lower-cased value contains `total`,
`not defined` or `grand total` as a substring; `Grand Total`,
`  Not Defined ` and `Totally Awesome` are dropped, every surviving row's
name passes the predicate — but the literal empty string and `Undefined`
are NOT dropped (the code has no `undefined` pattern and `dropna` does not
drop empty strings). -/
theorem C4_theorem :
    (∀ s : String, rowKept (some s) = true ↔
      (hasSub (toLowerList s) "total".toList = false ∧
       hasSub (toLowerList s) "not defined".toList = false ∧
       hasSub (toLowerList s) "grand total".toList = false)) ∧
    rowKept none = false ∧
    (∀ df : DataFrame, ∀ t : List CanonicalRow, clean_uploaded_data df = Except.ok t →
      ∀ row ∈ t, rowKept row.name = true) ∧
    rowKept (some "Grand Total") = false ∧
    rowKept (some "  Not Defined ") = false ∧
    rowKept (some "Totally Awesome") = false := by
  refine ⟨?_, rfl, ?_, rfl, rfl, rfl⟩
  · intro s
    simp [rowKept, and_assoc]
  · intro df t h row hrow
    obtain ⟨cols, data⟩ := df
    obtain ⟨d2, _, ht⟩ := clean_ok_cases cols data t h
    rcases ht with ⟨_, ht⟩ | ⟨_, ht⟩ <;>
    · subst ht
      simp only [List.mem_map] at hrow
      obtain ⟨r, hr, rfl⟩ := hrow
      exact (List.mem_filter.mp hr).2

/-- Claim C4 counterexample: the frame whose PersonName cells are
`Undefined`, the empty string and `Grand Total` keeps the first two rows in
the output (the claim says both are always excluded). -/
theorem C4_counterexample :
    clean_uploaded_data dfExclusion = Except.ok [undefinedRow, emptyNameRow] ∧
    undefinedRow.name = some "Undefined" ∧ emptyNameRow.name = some "" :=
  ⟨rfl, rfl, rfl⟩

/-- Claim C4 witness: the invariant applied to the canonical frame's
output row. -/
theorem C4_witness : rowKept sharmaRow.name = true :=
  C4_theorem.2.2.1 dfCanonical [sharmaRow] rfl sharmaRow (by simp)

/-- Claim C5: numeric parse failures are never propagated: a cell whose
cleaned text fails to parse normalizes to 0, and whether the pipeline
succeeds depends only on the column labels (empty or unsupported column
count), never on cell contents — malformed numeric cells cannot raise. -/
theorem C5_theorem :
    (∀ c : Cell, toNumericCell c = none → normalizeCell c = 0) ∧
    (∀ df : DataFrame, (clean_uploaded_data df).isOk = true ↔
      (df.columns ≠ [] ∧ (effectiveColCount df = 8 ∨ effectiveColCount df = 7))) := by
  constructor
  · intro c h
    unfold normalizeCell
    rw [h]
  · intro df
    obtain ⟨cols, data⟩ := df
    cases cols with
    | nil => simp [clean_uploaded_data, Except.isOk, Except.toBool]
    | cons c0 rest =>
      have heff : effectiveColCount ⟨c0 :: rest, data⟩ =
          (if "Unnamed".toList.isPrefixOf c0.toList = true then rest.length
           else rest.length + 1) := rfl
      unfold clean_uploaded_data
      simp only
      by_cases hu : ("Unnamed".toList.isPrefixOf c0.toList) = true
      · rw [heff, if_pos hu]
        simp only [hu, if_true]
        by_cases h8 : rest.length = 8
        · simp [h8, Except.isOk, Except.toBool]
        · by_cases h7 : rest.length = 7
          · simp [h7, h8, Except.isOk, Except.toBool]
          · simp [h7, h8, Except.isOk, Except.toBool]
      · rw [Bool.not_eq_true] at hu
        rw [heff, hu, if_neg Bool.false_ne_true]
        simp only [hu, if_neg Bool.false_ne_true, List.length_cons]
        by_cases h8 : rest.length + 1 = 8
        · simp [h8, Except.isOk, Except.toBool]
        · by_cases h7 : rest.length + 1 = 7
          · simp [h7, h8, Except.isOk, Except.toBool]
          · simp [h7, h8, Except.isOk, Except.toBool]

/-- Claim C5 witness: an unparseable cell normalizes to 0, and the
canonical frame (valid columns) is processed successfully. -/
theorem C5_witness :
    normalizeCell (some "abc") = 0 ∧ (clean_uploaded_data dfCanonical).isOk = true :=
  ⟨C5_theorem.1 (some "abc") rfl,
   (C5_theorem.2 dfCanonical).mpr ⟨by decide, Or.inl rfl⟩⟩

/-- Claim C7 (amended): every numeric field of every output record is a
well-defined rational (parse failures become 0), and all numeric fields
are non-negative PROVIDED every cell of the input frame that parses at all
parses to a non-negative value — a negative numeric cell passes through
unchanged, so the unconditional non-negativity of the claim fails. -/
theorem C7_theorem (df : DataFrame) (t : List CanonicalRow)
    (hok : clean_uploaded_data df = Except.ok t)
    (hcells : ∀ r ∈ df.data, ∀ i : Nat, cellNonNeg (getCell r i)) :
    ∀ row ∈ t, 0 ≤ row.nights ∧ 0 ≤ row.occupancyPct ∧ 0 ≤ row.pax ∧
      0 ≤ row.roomRevenue ∧ 0 ≤ row.revenuePct ∧ 0 ≤ row.arr ∧ 0 ≤ row.arp := by
  obtain ⟨cols, data⟩ := df
  obtain ⟨d2, hd2, ht⟩ := clean_ok_cases cols data t hok
  have hcells2 : ∀ r ∈ d2, ∀ i : Nat, cellNonNeg (getCell r i) := by
    rcases hd2 with rfl | rfl
    · exact hcells
    · intro r hr i
      simp only [List.mem_map] at hr
      obtain ⟨r0, hr0, rfl⟩ := hr
      rw [getCell_tail]
      exact hcells r0 hr0 (i + 1)
  intro row hrow
  have hzero : (0 : ℚ) ≤ normalizeCell (some "0") := by
    show (0 : ℚ) ≤ decVal 0 0
    norm_num [decVal]
  rcases ht with ⟨_, ht⟩ | ⟨_, ht⟩
  · subst ht
    simp only [List.mem_map] at hrow
    obtain ⟨r, hr, rfl⟩ := hrow
    have hri := hcells2 r (List.mem_filter.mp hr).1
    exact ⟨normalizeCell_nonneg _ (hri 1), normalizeCell_nonneg _ (hri 2),
      normalizeCell_nonneg _ (hri 3), normalizeCell_nonneg _ (hri 4),
      normalizeCell_nonneg _ (hri 5), normalizeCell_nonneg _ (hri 6),
      normalizeCell_nonneg _ (hri 7)⟩
  · subst ht
    simp only [List.mem_map] at hrow
    obtain ⟨r, hr, rfl⟩ := hrow
    have hri := hcells2 r (List.mem_filter.mp hr).1
    exact ⟨normalizeCell_nonneg _ (hri 1), normalizeCell_nonneg _ (hri 2),
      normalizeCell_nonneg _ (hri 3), normalizeCell_nonneg _ (hri 4),
      hzero, normalizeCell_nonneg _ (hri 5), normalizeCell_nonneg _ (hri 6)⟩

/-- Claim C7 counterexample: a frame whose Nights cell is `-5` yields an
output record with a negative Nights field — the claimed unconditional
non-negativity invariant does not hold. -/
theorem C7_counterexample :
    clean_uploaded_data dfNegative = Except.ok [negativeRow] ∧ negativeRow.nights < 0 := by
  refine ⟨rfl, ?_⟩
  show decVal (-5) 0 < 0
  norm_num [decVal]

/-- Claim C7 witness: the canonical frame (all cells non-negative or
unparseable) satisfies the non-negativity conclusion. -/
theorem C7_witness :
    0 ≤ sharmaRow.nights ∧ 0 ≤ sharmaRow.occupancyPct ∧ 0 ≤ sharmaRow.pax ∧
    0 ≤ sharmaRow.roomRevenue ∧ 0 ≤ sharmaRow.revenuePct ∧ 0 ≤ sharmaRow.arr ∧
    0 ≤ sharmaRow.arp := by
  refine C7_theorem dfCanonical [sharmaRow] rfl ?_ sharmaRow (by simp)
  intro r hr i
  have hr2 : r = rowSharma := by simpa [dfCanonical] using hr
  subst hr2
  rcases Nat.lt_or_ge i 8 with hi | hi
  · interval_cases i
    · exact cellNonNeg_of_none _ rfl
    · exact cellNonNeg_of _ 10 0 rfl (by norm_num)
    · exact cellNonNeg_of _ 555 1 rfl (by norm_num)
    · exact cellNonNeg_of _ 4 0 rfl (by norm_num)
    · exact cellNonNeg_of _ 12000000 2 rfl (by norm_num)
    · exact cellNonNeg_of _ 12 0 rfl (by norm_num)
    · exact cellNonNeg_of _ 1200000 2 rfl (by norm_num)
    · exact cellNonNeg_of _ 300000 2 rfl (by norm_num)
  · have hlen : rowSharma.length ≤ i := by
      simp only [rowSharma]
      simpa using hi
    rw [show getCell rowSharma i = none from List.getD_eq_default _ _ hlen]
    exact cellNonNeg_none

/-- Claim C8: the pipeline's result equals that of the variant that
normalizes the numeric cells BEFORE row filtering — the filter reads only
the untouched name column, so the two step orders are observably
identical on every input frame. -/
theorem C8_theorem (df : DataFrame) :
    clean_uploaded_data df = clean_uploaded_data_normFirst df := by
  obtain ⟨cols, data⟩ := df
  cases cols with
  | nil => rfl
  | cons c0 rest =>
    have hcomm8 : ∀ d2 : List (List Cell),
        (d2.filter (fun r => rowKept (getCell r 0))).map buildRow8 =
        (d2.map buildRow8).filter (fun row => rowKept row.name) := by
      intro d2
      rw [List.filter_map]
      rfl
    have hcomm7 : ∀ d2 : List (List Cell),
        (d2.filter (fun r => rowKept (getCell r 0))).map buildRow7 =
        (d2.map buildRow7).filter (fun row => rowKept row.name) := by
      intro d2
      rw [List.filter_map]
      rfl
    unfold clean_uploaded_data clean_uploaded_data_normFirst
    simp only
    by_cases hu : ("Unnamed".toList.isPrefixOf c0.toList) = true
    · simp only [hu, if_true]
      split_ifs <;> simp [hcomm8, hcomm7]
    · rw [Bool.not_eq_true] at hu
      simp only [hu, if_neg Bool.false_ne_true]
      split_ifs <;> simp [hcomm8, hcomm7]

/-- Claim C9 (amended): only the Revenue% field is ever synthesized: in
the 7-column branch every output record carries Revenue% = 0; any other
missing-column configuration (effective count not 7 or 8) fails with the
unsupported-format ValueError instead of being defaulted. -/
theorem C9_theorem (df : DataFrame) (t : List CanonicalRow)
    (h7 : effectiveColCount df = 7) (hok : clean_uploaded_data df = Except.ok t) :
    ∀ row ∈ t, row.revenuePct = 0 := by
  obtain ⟨cols, data⟩ := df
  obtain ⟨d2, _, ht⟩ := clean_ok_cases cols data t hok
  rcases ht with ⟨h8, _⟩ | ⟨_, ht⟩
  · rw [h7] at h8
    exact absurd h8 (by norm_num)
  · subst ht
    intro row hrow
    simp only [List.mem_map] at hrow
    obtain ⟨r, _, rfl⟩ := hrow
    show normalizeCell (some "0") = 0
    show decVal 0 0 = 0
    norm_num [decVal]

/-- Claim C9 counterexample: a frame with only PersonName and RoomRevenue
columns is NOT reconciled with defaulted optional fields — it fails with
the unsupported-format error. -/
theorem C9_counterexample :
    clean_uploaded_data dfTwoCol =
      Except.error "Unsupported file format. Found 2 columns." := rfl

/-- Claim C9 witness: the 7-column frame's output row carries Revenue% = 0. -/
theorem C9_witness : sevenRow.revenuePct = 0 :=
  C9_theorem dfSeven [sevenRow] rfl rfl sevenRow (by simp)

/-- Claim C10 (amended): `format_inr` returns exactly `₹0.00` for every
input that `float()` cannot convert, and for every finite convertible
value it returns a `₹`-prefixed string ending in a point and two decimal
digits (with the Indian digit grouping shown by the concrete examples);
but it is NOT total: a convertible NaN or infinity makes the `parts[1]`
access raise an `IndexError`. -/
theorem C10_theorem :
    (∀ s : String, pyFloat s = none → format_inr s = Except.ok "₹0.00") ∧
    (∀ s : String, ∀ m : Int, ∀ f : Nat, pyFloat s = some (PyVal.fin m f) →
      ∃ u : List Char, ∃ d1 d2 : Char,
        format_inr s = Except.ok (String.mk ('₹' :: u ++ '.' :: [d1, d2])) ∧
        (charDig d1).isSome = true ∧ (charDig d2).isSome = true) ∧
    (∀ s : String, (format_inr s).isOk = false ↔
      (pyFloat s = some PyVal.pnan ∨ pyFloat s = some PyVal.pinf ∨
       pyFloat s = some PyVal.pninf)) ∧
    format_inr "1234567.8" = Except.ok "₹12,34,567.80" ∧
    format_inr "120000" = Except.ok "₹1,20,000.00" ∧
    format_inr "₹1,234.50" = Except.ok "₹0.00" := by
  refine ⟨?_, ?_, ?_, rfl, rfl, rfl⟩
  · intro s h
    unfold format_inr
    rw [h]
  · intro s m f h
    have hd1 : (divHalfEven (m * 100) ((10 : Int) ^ f)).natAbs % 100 / 10 < 10 := by omega
    have hd2 : (divHalfEven (m * 100) ((10 : Int) ^ f)).natAbs % 10 < 10 := by omega
    refine ⟨inrGroup ((if divHalfEven (m * 100) ((10 : Int) ^ f) < 0 then ['-'] else []) ++
        natDigs ((divHalfEven (m * 100) ((10 : Int) ^ f)).natAbs / 100)),
      digChar ((divHalfEven (m * 100) ((10 : Int) ^ f)).natAbs % 100 / 10),
      digChar ((divHalfEven (m * 100) ((10 : Int) ^ f)).natAbs % 10), ?_, ?_, ?_⟩
    · unfold format_inr
      rw [h]
    · rw [charDig_digChar _ hd1]
      rfl
    · rw [charDig_digChar _ hd2]
      rfl
  · intro s
    unfold format_inr
    cases h : pyFloat s with
    | none => simp [Except.isOk, Except.toBool]
    | some v =>
      cases v with
      | fin m f => simp [Except.isOk, Except.toBool]
      | pnan => simp [Except.isOk, Except.toBool]
      | pinf => simp [Except.isOk, Except.toBool]
      | pninf => simp [Except.isOk, Except.toBool]

/-- Claim C10 counterexample: the convertible input `nan` does not yield a
`₹`-string (and a fortiori not `₹0.00`): the formatter raises an
`IndexError`, so it is not total over arbitrary inputs. -/
theorem C10_counterexample :
    format_inr "nan" = Except.error "IndexError" ∧
    format_inr "inf" = Except.error "IndexError" := ⟨rfl, rfl⟩

/-- Claim C10 witness: an unconvertible input and a finite input, with the
hypotheses discharged concretely. -/
theorem C10_witness :
    format_inr "xyz" = Except.ok "₹0.00" ∧
    (∃ u : List Char, ∃ d1 d2 : Char,
      format_inr "120000" = Except.ok (String.mk ('₹' :: u ++ '.' :: [d1, d2])) ∧
      (charDig d1).isSome = true ∧ (charDig d2).isSome = true) ∧
    (format_inr "nan").isOk = false :=
  ⟨C10_theorem.1 "xyz" rfl, C10_theorem.2.1 "120000" 120000 0 rfl,
   (C10_theorem.2.2.1 "nan").mpr (Or.inl rfl)⟩
